import Mathlib

/-!
Shallow embedding of `src/resources/pty-helper.py` (the PTY bridge of
obsidian-claude-code): startup argument/environment handling, the
select-based multiplexing loop of `main`, and the `finally` cleanup block.

The loop is modelled as a step function over "iteration events": each
event records which descriptors `select` reported ready and what the
operating system returned for each read/write/ioctl the loop body then
performs.  Bytes are natural numbers; errnos are natural numbers with the
Linux values for EINTR, EIO and EAGAIN.  A short (partial) `os.write` to
the master is modelled by the event's `accept` field: the kernel takes
only the first `accept` bytes of the buffer, and — as in the source,
which ignores the return value of `os.write` — the remainder is dropped.
-/

namespace PtyHelper

abbrev Byte := Nat

def EINTR : Nat := 4
def EIO : Nat := 5
def EAGAIN : Nat := 11

/-- Result of an `os.read` call: either a byte string (possibly empty,
signalling end-of-file) or an `OSError` with the given errno. -/
inductive ReadRes where
  | ok (data : List Byte)
  | err (e : Nat)
deriving DecidableEq, Repr

/-- Test for `e.errno in (errno.EINTR, errno.EAGAIN)` — the retryable errnos. -/
def isRetryable (e : Nat) : Bool :=
  e = EINTR || e = EAGAIN

/-- One iteration's environment behaviour: the ready set returned by
`select`, the outcome of each read the body may perform, the outcome of
the `sys.stdout` write, of the `os.write` to the master (`writeRes`,
with `accept` the number of bytes the kernel takes on success), and of
the `fcntl.ioctl` resize call.  `none` means the call raised no
`OSError`. -/
structure IterEvent where
  rfds : List Nat
  masterRead : ReadRes
  stdinRead : ReadRes
  ctrlRead : ReadRes
  stdoutRes : Option Nat
  writeRes : Option Nat
  accept : Nat
  ioctlRes : Option Nat
deriving DecidableEq, Repr

/-- The loop's observable state: the watch set `fds`, the bytes written
and flushed to the bridge's stdout, the bytes the kernel accepted into
the master descriptor, and the raw 8-byte records passed to the
`TIOCSWINSZ` ioctl, in order. -/
structure LoopState where
  fds : List Nat
  outB : List Byte
  masterB : List Byte
  ioctls : List (List Byte)
deriving DecidableEq, Repr

/-- The watch set is `fds = [fd, 0, 3]` right before the loop starts. -/
def initState (fdM : Nat) : LoopState :=
  { fds := [fdM, 0, 3], outB := [], masterB := [], ioctls := [] }

/-- How an iteration of the body ends: `cont` proceeds to the next
`select` (a normal fall-through or a `continue`), `brk` leaves the
loop (`break`). -/
inductive StepOut where
  | cont (s : LoopState)
  | brk (s : LoopState)
deriving DecidableEq, Repr

/-- The `if fd in rfds:` block: read the master; empty read breaks;
data is written to stdout and flushed; EINTR/EAGAIN continue, EIO
breaks, any other OSError breaks.  `Sum.inl` ends the iteration,
`Sum.inr` falls through to the next block. -/
def masterBranch (fdM : Nat) (s : LoopState) (ev : IterEvent) :
    StepOut ⊕ LoopState :=
  if fdM ∈ ev.rfds then
    match ev.masterRead with
    | .ok data =>
      if data.length = 0 then .inl (.brk s)
      else
        match ev.stdoutRes with
        | none => .inr { s with outB := s.outB ++ data }
        | some e =>
          if isRetryable e then .inl (.cont s) else .inl (.brk s)
    | .err e =>
      if isRetryable e then .inl (.cont s)
      else if e = EIO then .inl (.brk s)
      else .inl (.brk s)
  else .inr s

/-- The `if 0 in rfds:` block: read the bridge's stdin; empty read
breaks; data is passed to `os.write(fd, buf)` whose return value is
ignored, so only the first `accept` bytes reach the master;
EINTR/EAGAIN continue, any other OSError breaks. -/
def stdinBranch (s : LoopState) (ev : IterEvent) :
    StepOut ⊕ LoopState :=
  if 0 ∈ ev.rfds then
    match ev.stdinRead with
    | .ok data =>
      if data.length = 0 then .inl (.brk s)
      else
        match ev.writeRes with
        | none => .inr { s with masterB := s.masterB ++ data.take ev.accept }
        | some e =>
          if isRetryable e then .inl (.cont s) else .inl (.brk s)
    | .err e =>
      if isRetryable e then .inl (.cont s) else .inl (.brk s)
  else .inr s

/-- The `if 3 in rfds:` block: read up to 8 bytes from the control
channel; an empty read shrinks the watch set to `[fd, 0]`; an exact
8-byte read is passed unmodified to `fcntl.ioctl(fd, TIOCSWINSZ, _)`;
any other length is ignored; EINTR/EAGAIN continue, any other OSError
breaks. -/
def ctrlBranch (fdM : Nat) (s : LoopState) (ev : IterEvent) :
    StepOut ⊕ LoopState :=
  if 3 ∈ ev.rfds then
    match ev.ctrlRead with
    | .ok data =>
      if data.length = 0 then .inr { s with fds := [fdM, 0] }
      else if data.length = 8 then
        match ev.ioctlRes with
        | none => .inr { s with ioctls := s.ioctls ++ [data] }
        | some e =>
          if isRetryable e then .inl (.cont s) else .inl (.brk s)
      else .inr s
    | .err e =>
      if isRetryable e then .inl (.cont s) else .inl (.brk s)
  else .inr s

/-- One full iteration of the `while True` body: the three guarded
blocks in source order; a `continue`/`break` in an earlier block skips
the later ones. -/
def stepIter (fdM : Nat) (s : LoopState) (ev : IterEvent) : StepOut :=
  match masterBranch fdM s ev with
  | .inl out => out
  | .inr s1 =>
    match stdinBranch s1 ev with
    | .inl out => out
    | .inr s2 =>
      match ctrlBranch fdM s2 ev with
      | .inl out => out
      | .inr s3 => .cont s3

/-- The state carried by an iteration outcome. -/
def StepOut.state : StepOut → LoopState
  | .cont s => s
  | .brk s => s

/-- What happens at one `select` boundary: either the wait returns a
ready set and the body runs (`io`), or a `KeyboardInterrupt` arrives
and is caught by the `except KeyboardInterrupt: pass` around the loop
(`intr`). -/
inductive SessionEvent where
  | io (ev : IterEvent)
  | intr
deriving DecidableEq, Repr

/-- Run the loop on a finite trace of events.  The boolean reports
whether the loop has ended (by `break` or by interrupt); `false` means
the trace ran out with the loop still waiting in `select`. -/
def runLoopS (fdM : Nat) : LoopState → List SessionEvent → LoopState × Bool
  | s, [] => (s, false)
  | s, .intr :: _ => (s, true)
  | s, .io ev :: evs =>
    match stepIter fdM s ev with
    | .cont s1 => runLoopS fdM s1 evs
    | .brk s1 => (s1, true)

/-- Outcome of the `os.kill(pid, 9)` call in the `finally` block. -/
inductive KillRes where
  | ok
  | processLookupError
  | otherError (e : Nat)
deriving DecidableEq, Repr

/-- Outcome of the `os.close(fd)` call in the `finally` block. -/
inductive CloseRes where
  | ok
  | oserror (e : Nat)
deriving DecidableEq, Repr

/-- The operating system's behaviour during cleanup. -/
structure CleanupEnv where
  kill : KillRes
  close : CloseRes
deriving DecidableEq, Repr

/-- Observable effect of one execution of the `finally` block. -/
structure CleanupEffect where
  killAttempted : Bool
  closeAttempted : Bool
  raised : Bool
deriving DecidableEq, Repr

/-- The `finally` block: `os.kill(pid, 9)` with only
`ProcessLookupError` caught, then `os.close(fd)` with any `OSError`
caught.  An uncaught exception from the kill propagates and the close
never runs. -/
def cleanup (env : CleanupEnv) : CleanupEffect :=
  match env.kill with
  | .ok =>
    { killAttempted := true, closeAttempted := true, raised := false }
  | .processLookupError =>
    { killAttempted := true, closeAttempted := true, raised := false }
  | .otherError _ =>
    { killAttempted := true, closeAttempted := false, raised := true }

/-- A whole session after launch: the loop runs on the trace and, as
soon as the loop ends by any path, the `finally` block runs exactly
once.  Returns the final loop state, the number of cleanup executions
so far, and the cleanup effect («all false» when cleanup has not
run). -/
def runSession (fdM : Nat) (s0 : LoopState) (evs : List SessionEvent)
    (cenv : CleanupEnv) : LoopState × Nat × CleanupEffect :=
  match runLoopS fdM s0 evs with
  | (s, true) => (s, 1, cleanup cenv)
  | (s, false) =>
    (s, 0, { killAttempted := false, closeAttempted := false, raised := false })

/-- Decode of a native-order (little-endian) unsigned 16-bit field,
as the kernel reads the `struct winsize` buffer handed to
`TIOCSWINSZ`. -/
def decode16 (lo hi : Nat) : Nat := lo + 256 * hi

/-- The four fields of the window-size record. -/
structure Winsize where
  rows : Nat
  cols : Nat
  xpixel : Nat
  ypixel : Nat
deriving DecidableEq, Repr

/-- Kernel-side view of an 8-byte window-size record: four native-order
unsigned 16-bit fields `(rows, cols, xpixel, ypixel)`. -/
def decodeWinsize (b : List Byte) : Winsize :=
  { rows := decode16 (b.getD 0 0) (b.getD 1 0)
    cols := decode16 (b.getD 2 0) (b.getD 3 0)
    xpixel := decode16 (b.getD 4 0) (b.getD 5 0)
    ypixel := decode16 (b.getD 6 0) (b.getD 7 0) }

/-- Assignment `env[k] = v` on the environment mapping: replace the entry for `k`
in place if present, else append it. -/
def envSet : List (String × String) → String → String → List (String × String)
  | [], k, v => [(k, v)]
  | p :: t, k, v => if p.1 = k then (k, v) :: t else p :: envSet t k v

/-- Lookup in the environment mapping. -/
def envGet : List (String × String) → String → Option String
  | [], _ => none
  | p :: t, k => if p.1 = k then some p.2 else envGet t k

/-- What `execve` receives: path, argv (whose element 0 is the path),
and the environment. -/
structure LaunchConfig where
  cmd_path : String
  cmd_argv : List String
  env : List (String × String)
deriving DecidableEq, Repr

/-- Startup of `main` before the fork: `len(sys.argv) < 2` prints the
usage line to stderr and exits with status 1 (`Sum.inl`, no child ever
created); otherwise the launch configuration is built from
`sys.argv[1]`, `sys.argv[1:]`, and `os.environ` with `TERM` and
`FORCE_COLOR` overridden (`Sum.inr`). -/
def mainStart (argv : List String) (environ : List (String × String)) :
    (String × Nat) ⊕ LaunchConfig :=
  if argv.length < 2 then
    .inl ("Usage: pty-helper.py <command> [args...]", 1)
  else
    .inr { cmd_path := argv.getD 1 ""
           cmd_argv := argv.drop 1
           env := envSet (envSet environ "TERM" "xterm-256color") "FORCE_COLOR" "1" }

/-! ## Helper lemmas -/

lemma envGet_envSet_self (env : List (String × String)) (k v : String) :
    envGet (envSet env k v) k = some v := by
  induction env with
  | nil => simp [envSet, envGet]
  | cons p t ih =>
    by_cases h : p.1 = k <;> simp [envSet, envGet, h, ih]

lemma envGet_envSet_other (env : List (String × String)) (k v k' : String)
    (h : k' ≠ k) : envGet (envSet env k v) k' = envGet env k' := by
  induction env with
  | nil => simp [envSet, envGet, Ne.symm h]
  | cons p t ih =>
    by_cases hp : p.1 = k
    · simp [envSet, envGet, hp, h, Ne.symm h]
    · by_cases hp' : p.1 = k' <;> simp [envSet, envGet, hp, hp', h, ih]

lemma mainStart_cons (a b : String) (t : List String)
    (environ : List (String × String)) :
    mainStart (a :: b :: t) environ =
      .inr { cmd_path := b
             cmd_argv := b :: t
             env := envSet (envSet environ "TERM" "xterm-256color")
               "FORCE_COLOR" "1" } := by
  simp only [mainStart, List.length_cons]
  rw [if_neg (by omega)]
  rfl

/-! ## Claim theorems -/

/-- Claim C7: invoked without a command argument (`len(sys.argv) < 2`),
the bridge prints the usage message to stderr and exits with status 1,
and no launch configuration — hence no child process — is ever
produced on this path. -/
theorem usage_error_no_child (argv : List String)
    (environ : List (String × String)) (h : argv.length < 2) :
    mainStart argv environ =
      .inl ("Usage: pty-helper.py <command> [args...]", 1) ∧
    ∀ cfg : LaunchConfig, mainStart argv environ ≠ .inr cfg := by
  refine ⟨by simp [mainStart, h], fun cfg hc => ?_⟩
  simp [mainStart, h] at hc

theorem usage_error_no_child_witness :
    mainStart ["pty-helper.py"] [("PATH", "/bin")] =
      .inl ("Usage: pty-helper.py <command> [args...]", 1) ∧
    ∀ cfg : LaunchConfig,
      mainStart ["pty-helper.py"] [("PATH", "/bin")] ≠ .inr cfg :=
  usage_error_no_child ["pty-helper.py"] [("PATH", "/bin")] (by decide)

/-- Claim C8: with a command argument present, the child is launched
with argv whose element 0 is the command path itself, and with the
inherited environment overridden at exactly `TERM` (to
`xterm-256color`) and `FORCE_COLOR` (to `1`); every other variable is
unchanged. -/
theorem launch_argv_and_env (argv : List String)
    (environ : List (String × String)) (h : 2 ≤ argv.length) :
    ∃ cfg : LaunchConfig, mainStart argv environ = .inr cfg ∧
      cfg.cmd_argv = argv.drop 1 ∧
      cfg.cmd_argv.head? = some cfg.cmd_path ∧
      envGet cfg.env "TERM" = some "xterm-256color" ∧
      envGet cfg.env "FORCE_COLOR" = some "1" ∧
      ∀ k, k ≠ "TERM" → k ≠ "FORCE_COLOR" →
        envGet cfg.env k = envGet environ k := by
  match argv, h with
  | a :: b :: t, _ =>
    refine ⟨_, mainStart_cons a b t environ, rfl, rfl, ?_, ?_, ?_⟩
    · exact (envGet_envSet_other _ _ _ _ (by decide)).trans (envGet_envSet_self _ _ _)
    · exact envGet_envSet_self _ _ _
    · intro k hk1 hk2
      rw [envGet_envSet_other _ _ _ _ hk2, envGet_envSet_other _ _ _ _ hk1]

theorem launch_argv_and_env_witness :
    ∃ cfg : LaunchConfig,
      mainStart ["pty-helper.py", "/bin/sh", "-l"]
        [("TERM", "dumb"), ("HOME", "/root")] = .inr cfg ∧
      cfg.cmd_argv = (["pty-helper.py", "/bin/sh", "-l"] : List String).drop 1 ∧
      cfg.cmd_argv.head? = some cfg.cmd_path ∧
      envGet cfg.env "TERM" = some "xterm-256color" ∧
      envGet cfg.env "FORCE_COLOR" = some "1" ∧
      ∀ k, k ≠ "TERM" → k ≠ "FORCE_COLOR" →
        envGet cfg.env k = envGet [("TERM", "dumb"), ("HOME", "/root")] k :=
  launch_argv_and_env ["pty-helper.py", "/bin/sh", "-l"]
    [("TERM", "dumb"), ("HOME", "/root")] (by decide)

/-- Claim C10: during cleanup the master descriptor is closed only when
the forced kill succeeded or failed with process-not-found; any other
kill failure (for example a permission error) propagates out of the
`finally` block and the close never executes. -/
theorem cleanup_close_gated_on_kill (cenv : CleanupEnv) :
    (∀ e, cenv.kill = .otherError e →
      (cleanup cenv).closeAttempted = false ∧ (cleanup cenv).raised = true) ∧
    ((cenv.kill = .ok ∨ cenv.kill = .processLookupError) →
      (cleanup cenv).closeAttempted = true ∧ (cleanup cenv).raised = false) := by
  constructor
  · intro e he; simp [cleanup, he]
  · rintro (hk | hk) <;> simp [cleanup, hk]

theorem cleanup_close_gated_on_kill_witness :
    ((cleanup ⟨.otherError 1, .ok⟩).closeAttempted = false ∧
      (cleanup ⟨.otherError 1, .ok⟩).raised = true) ∧
    ((cleanup ⟨.ok, .ok⟩).closeAttempted = true ∧
      (cleanup ⟨.ok, .ok⟩).raised = false) :=
  ⟨(cleanup_close_gated_on_kill ⟨.otherError 1, .ok⟩).1 1 rfl,
   (cleanup_close_gated_on_kill ⟨.ok, .ok⟩).2 (Or.inl rfl)⟩

/-- Claim C2: whenever the loop ends — by `break` on EOF, by `break` on
a fatal I/O error, or by a caught interrupt — cleanup runs exactly
once; and when the kill finds the process alive or already exited, no
exception escapes cleanup and the master descriptor close is attempted
(its own failure being swallowed), whatever the close outcome. -/
theorem cleanup_runs_once_and_tolerates (fdM : Nat) (s0 : LoopState)
    (evs : List SessionEvent) (cenv : CleanupEnv)
    (hend : (runLoopS fdM s0 evs).2 = true) :
    (runSession fdM s0 evs cenv).2.1 = 1 ∧
    ((cenv.kill = .ok ∨ cenv.kill = .processLookupError) →
      (runSession fdM s0 evs cenv).2.2.raised = false ∧
      (runSession fdM s0 evs cenv).2.2.killAttempted = true ∧
      (runSession fdM s0 evs cenv).2.2.closeAttempted = true) := by
  rcases hr : runLoopS fdM s0 evs with ⟨s, b⟩
  rw [hr] at hend; subst hend
  refine ⟨by simp [runSession, hr], ?_⟩
  rintro (hk | hk) <;> simp [runSession, hr, cleanup, hk]

theorem cleanup_runs_once_and_tolerates_witness :
    (runSession 5 (initState 5) [.intr]
      ⟨.processLookupError, .oserror 9⟩).2.1 = 1 ∧
    (((⟨.processLookupError, .oserror 9⟩ : CleanupEnv).kill = .ok ∨
      (⟨.processLookupError, .oserror 9⟩ : CleanupEnv).kill = .processLookupError) →
      (runSession 5 (initState 5) [.intr]
        ⟨.processLookupError, .oserror 9⟩).2.2.raised = false ∧
      (runSession 5 (initState 5) [.intr]
        ⟨.processLookupError, .oserror 9⟩).2.2.killAttempted = true ∧
      (runSession 5 (initState 5) [.intr]
        ⟨.processLookupError, .oserror 9⟩).2.2.closeAttempted = true) :=
  cleanup_runs_once_and_tolerates 5 (initState 5) [.intr]
    ⟨.processLookupError, .oserror 9⟩ (by decide)

/-- Claim C3: a zero-length read on the master terminates the loop, and
a zero-length read on the bridge's stdin terminates the entire loop as
well; in both cases the session proceeds to cleanup (which then runs
exactly once). -/
theorem eof_read_terminates (fdM : Nat) (s : LoopState) (ev : IterEvent)
    (cenv : CleanupEnv) :
    (fdM ∈ ev.rfds → ev.masterRead = .ok [] →
      stepIter fdM s ev = .brk s ∧
      (runSession fdM s [.io ev] cenv).2.1 = 1) ∧
    (fdM ∉ ev.rfds → (0 : Nat) ∈ ev.rfds → ev.stdinRead = .ok [] →
      stepIter fdM s ev = .brk s ∧
      (runSession fdM s [.io ev] cenv).2.1 = 1) := by
  constructor
  · intro h1 h2
    have hs : stepIter fdM s ev = .brk s := by
      simp [stepIter, masterBranch, h1, h2]
    exact ⟨hs, by simp [runSession, runLoopS, hs]⟩
  · intro h1 h2 h3
    have hs : stepIter fdM s ev = .brk s := by
      simp [stepIter, masterBranch, stdinBranch, h1, h2, h3]
    exact ⟨hs, by simp [runSession, runLoopS, hs]⟩

theorem eof_read_terminates_witness :
    (stepIter 5 (initState 5)
        { rfds := [5], masterRead := .ok [], stdinRead := .ok [7],
          ctrlRead := .ok [], stdoutRes := none, writeRes := none,
          accept := 0, ioctlRes := none } = .brk (initState 5) ∧
      (runSession 5 (initState 5)
        [.io { rfds := [5], masterRead := .ok [], stdinRead := .ok [7],
               ctrlRead := .ok [], stdoutRes := none, writeRes := none,
               accept := 0, ioctlRes := none }] ⟨.ok, .ok⟩).2.1 = 1) ∧
    (stepIter 5 (initState 5)
        { rfds := [0], masterRead := .ok [7], stdinRead := .ok [],
          ctrlRead := .ok [], stdoutRes := none, writeRes := none,
          accept := 0, ioctlRes := none } = .brk (initState 5) ∧
      (runSession 5 (initState 5)
        [.io { rfds := [0], masterRead := .ok [7], stdinRead := .ok [],
               ctrlRead := .ok [], stdoutRes := none, writeRes := none,
               accept := 0, ioctlRes := none }] ⟨.ok, .ok⟩).2.1 = 1) :=
  ⟨(eof_read_terminates 5 (initState 5) _ ⟨.ok, .ok⟩).1 (by decide) rfl,
   (eof_read_terminates 5 (initState 5) _ ⟨.ok, .ok⟩).2 (by decide) (by decide) rfl⟩

/-- Claim C4: a zero-length control-channel read is non-fatal: the
watch set shrinks to `[fd, 0]`, the loop continues, and on a later
iteration the relay still moves child output to stdout and stdin bytes
to the master in both directions. -/
theorem ctrl_close_keeps_data_plane (fdM : Nat) (s : LoopState)
    (ev0 ev1 : IterEvent) (d1 d2 : List Byte)
    (h0m : fdM ∉ ev0.rfds) (h00 : (0 : Nat) ∉ ev0.rfds)
    (h03 : (3 : Nat) ∈ ev0.rfds) (h0c : ev0.ctrlRead = .ok [])
    (h1m : fdM ∈ ev1.rfds) (h10 : (0 : Nat) ∈ ev1.rfds)
    (h13 : (3 : Nat) ∉ ev1.rfds)
    (h1r : ev1.masterRead = .ok d1) (h1d : d1 ≠ [])
    (h1s : ev1.stdinRead = .ok d2) (h2d : d2 ≠ [])
    (h1so : ev1.stdoutRes = none) (h1w : ev1.writeRes = none)
    (hacc : d2.length ≤ ev1.accept) :
    stepIter fdM s ev0 = .cont { s with fds := [fdM, 0] } ∧
    runLoopS fdM s [.io ev0, .io ev1] =
      ({ fds := [fdM, 0], outB := s.outB ++ d1,
         masterB := s.masterB ++ d2, ioctls := s.ioctls }, false) := by
  have h1 : stepIter fdM s ev0 = .cont { s with fds := [fdM, 0] } := by
    simp [stepIter, masterBranch, stdinBranch, ctrlBranch, h0m, h00, h03, h0c]
  have htake : d2.take ev1.accept = d2 := List.take_of_length_le hacc
  have h2 : stepIter fdM { s with fds := [fdM, 0] } ev1 =
      .cont { fds := [fdM, 0], outB := s.outB ++ d1,
              masterB := s.masterB ++ d2, ioctls := s.ioctls } := by
    simp [stepIter, masterBranch, stdinBranch, ctrlBranch, h1m, h10, h13,
      h1r, h1s, h1so, h1w, htake, h1d, h2d]
  exact ⟨h1, by simp [runLoopS, h1, h2]⟩

theorem ctrl_close_keeps_data_plane_witness :
    stepIter 5 (initState 5)
        { rfds := [3], masterRead := .ok [], stdinRead := .ok [],
          ctrlRead := .ok [], stdoutRes := none, writeRes := none,
          accept := 0, ioctlRes := none } =
      .cont { initState 5 with fds := [5, 0] } ∧
    runLoopS 5 (initState 5)
        [.io { rfds := [3], masterRead := .ok [], stdinRead := .ok [],
               ctrlRead := .ok [], stdoutRes := none, writeRes := none,
               accept := 0, ioctlRes := none },
         .io { rfds := [5, 0], masterRead := .ok [72], stdinRead := .ok [105],
               ctrlRead := .ok [], stdoutRes := none, writeRes := none,
               accept := 1, ioctlRes := none }] =
      ({ fds := [5, 0], outB := (initState 5).outB ++ [72],
         masterB := (initState 5).masterB ++ [105],
         ioctls := (initState 5).ioctls }, false) :=
  ctrl_close_keeps_data_plane 5 (initState 5) _ _ [72] [105]
    (by decide) (by decide) (by decide) rfl
    (by decide) (by decide) (by decide) rfl (by decide) rfl (by decide)
    rfl rfl (by decide)

/-- Claim C5: an exact 8-byte control record is handed unmodified to
the `TIOCSWINSZ` ioctl on the master, whose native 16-bit decode for
the rows=24, cols=80 record is 24×80 (non-zero reserved fields pass
through without changing rows/cols); a 1-to-7-byte read applies no
resize and the loop continues. -/
theorem resize_record_applied (fdM : Nat) (s : LoopState) (ev : IterEvent)
    (b : List Byte)
    (hm : fdM ∉ ev.rfds) (h0 : (0 : Nat) ∉ ev.rfds)
    (h3 : (3 : Nat) ∈ ev.rfds) (hc : ev.ctrlRead = .ok b)
    (hio : ev.ioctlRes = none) :
    (b.length = 8 →
      stepIter fdM s ev = .cont { s with ioctls := s.ioctls ++ [b] }) ∧
    (b.length ≠ 0 → b.length ≠ 8 → stepIter fdM s ev = .cont s) ∧
    decodeWinsize [24, 0, 80, 0, 0, 0, 0, 0] = ⟨24, 80, 0, 0⟩ ∧
    (decodeWinsize [24, 0, 80, 0, 7, 0, 9, 0]).rows = 24 ∧
    (decodeWinsize [24, 0, 80, 0, 7, 0, 9, 0]).cols = 80 := by
  refine ⟨?_, ?_, by decide, by decide, by decide⟩
  · intro hlen
    simp [stepIter, masterBranch, stdinBranch, ctrlBranch, hm, h0, h3, hc,
      hio, hlen]
  · intro hl0 hl8
    simp [stepIter, masterBranch, stdinBranch, ctrlBranch, hm, h0, h3, hc,
      hl0, hl8]

theorem resize_record_applied_witness :
    (([24, 0, 80, 0, 0, 0, 0, 0] : List Byte).length = 8 →
      stepIter 5 (initState 5)
        { rfds := [3], masterRead := .ok [], stdinRead := .ok [],
          ctrlRead := .ok [24, 0, 80, 0, 0, 0, 0, 0], stdoutRes := none,
          writeRes := none, accept := 0, ioctlRes := none } =
      .cont { initState 5 with
              ioctls := (initState 5).ioctls ++ [[24, 0, 80, 0, 0, 0, 0, 0]] }) ∧
    (([6, 7, 8] : List Byte).length ≠ 0 → ([6, 7, 8] : List Byte).length ≠ 8 →
      stepIter 5 (initState 5)
        { rfds := [3], masterRead := .ok [], stdinRead := .ok [],
          ctrlRead := .ok [6, 7, 8], stdoutRes := none,
          writeRes := none, accept := 0, ioctlRes := none } =
      .cont (initState 5)) :=
  ⟨(resize_record_applied 5 (initState 5) _ [24, 0, 80, 0, 0, 0, 0, 0]
      (by decide) (by decide) (by decide) rfl rfl).1,
   (resize_record_applied 5 (initState 5) _ [6, 7, 8]
      (by decide) (by decide) (by decide) rfl rfl).2.1⟩

/-- Claim C6: on a failed master read, EINTR/EAGAIN leave the state
untouched and continue the loop (retried at the next readiness cycle);
EIO breaks the loop silently; every other errno breaks the loop as
well. -/
theorem master_read_error_policy (fdM : Nat) (s : LoopState)
    (ev : IterEvent) (e : Nat)
    (hm : fdM ∈ ev.rfds) (hr : ev.masterRead = .err e) :
    (isRetryable e = true → stepIter fdM s ev = .cont s) ∧
    (e = EIO → stepIter fdM s ev = .brk s) ∧
    (isRetryable e = false → stepIter fdM s ev = .brk s) := by
  refine ⟨?_, ?_, ?_⟩
  · intro h
    simp [stepIter, masterBranch, hm, hr, h]
  · intro h
    simp [stepIter, masterBranch, hm, hr, h, isRetryable, EINTR, EAGAIN, EIO]
  · intro h
    have h4 : e ≠ 4 := by rintro rfl; simp [isRetryable, EINTR] at h
    have h11 : e ≠ 11 := by rintro rfl; simp [isRetryable, EAGAIN] at h
    by_cases he : e = EIO <;>
      simp [stepIter, masterBranch, hm, hr, he, isRetryable, EINTR,
        EAGAIN, EIO, h4, h11]

theorem master_read_error_policy_witness :
    (isRetryable 4 = true →
      stepIter 5 (initState 5)
        { rfds := [5], masterRead := .err 4, stdinRead := .ok [],
          ctrlRead := .ok [], stdoutRes := none, writeRes := none,
          accept := 0, ioctlRes := none } = .cont (initState 5)) ∧
    ((5 : Nat) = EIO →
      stepIter 5 (initState 5)
        { rfds := [5], masterRead := .err 5, stdinRead := .ok [],
          ctrlRead := .ok [], stdoutRes := none, writeRes := none,
          accept := 0, ioctlRes := none } = .brk (initState 5)) ∧
    (isRetryable 13 = false →
      stepIter 5 (initState 5)
        { rfds := [5], masterRead := .err 13, stdinRead := .ok [],
          ctrlRead := .ok [], stdoutRes := none, writeRes := none,
          accept := 0, ioctlRes := none } = .brk (initState 5)) :=
  ⟨(master_read_error_policy 5 (initState 5) _ 4 (by decide) rfl).1,
   (master_read_error_policy 5 (initState 5) _ 5 (by decide) rfl).2.1,
   (master_read_error_policy 5 (initState 5) _ 13 (by decide) rfl).2.2⟩

lemma masterBranch_fds (fdM : Nat) (s : LoopState) (ev : IterEvent) :
    (∀ o, masterBranch fdM s ev = Sum.inl o → o.state.fds = s.fds) ∧
    (∀ s', masterBranch fdM s ev = Sum.inr s' → s'.fds = s.fds) := by
  unfold masterBranch
  constructor <;> intro x hx <;> (repeat' split at hx) <;>
    (try injection hx with hx2) <;> (try subst hx2) <;>
    simp_all [StepOut.state]

lemma stdinBranch_fds (s : LoopState) (ev : IterEvent) :
    (∀ o, stdinBranch s ev = Sum.inl o → o.state.fds = s.fds) ∧
    (∀ s', stdinBranch s ev = Sum.inr s' → s'.fds = s.fds) := by
  unfold stdinBranch
  constructor <;> intro x hx <;> (repeat' split at hx) <;>
    (try injection hx with hx2) <;> (try subst hx2) <;>
    simp_all [StepOut.state]

lemma ctrlBranch_fds (fdM : Nat) (s : LoopState) (ev : IterEvent) :
    (∀ o, ctrlBranch fdM s ev = Sum.inl o → o.state.fds = s.fds) ∧
    (∀ s', ctrlBranch fdM s ev = Sum.inr s' →
      s'.fds = s.fds ∨
      ((3 : Nat) ∈ ev.rfds ∧ ev.ctrlRead = .ok [] ∧ s'.fds = [fdM, 0])) := by
  unfold ctrlBranch
  constructor <;> intro x hx <;> (repeat' split at hx) <;>
    (try injection hx with hx2) <;> (try subst hx2) <;>
    simp_all [StepOut.state]

lemma stepIter_fds_cases (fdM : Nat) (s : LoopState) (ev : IterEvent) :
    (stepIter fdM s ev).state.fds = s.fds ∨
    ((3 : Nat) ∈ ev.rfds ∧ ev.ctrlRead = .ok [] ∧
      (stepIter fdM s ev).state.fds = [fdM, 0]) := by
  unfold stepIter
  rcases hm : masterBranch fdM s ev with o | s1
  · simp only [hm]
    exact Or.inl ((masterBranch_fds fdM s ev).1 o hm)
  · simp only [hm]
    have h1 : s1.fds = s.fds := (masterBranch_fds fdM s ev).2 s1 hm
    rcases hs : stdinBranch s1 ev with o | s2
    · simp only [hs]
      exact Or.inl (((stdinBranch_fds s1 ev).1 o hs).trans h1)
    · simp only [hs]
      have h2 : s2.fds = s.fds :=
        ((stdinBranch_fds s1 ev).2 s2 hs).trans h1
      rcases hc : ctrlBranch fdM s2 ev with o | s3
      · simp only [hc]
        exact Or.inl (((ctrlBranch_fds fdM s2 ev).1 o hc).trans h2)
      · simp only [hc]
        rcases (ctrlBranch_fds fdM s2 ev).2 s3 hc with h3 | ⟨ha, hb, h3⟩
        · exact Or.inl (by simp [StepOut.state, h3, h2])
        · exact Or.inr ⟨ha, hb, by simp [StepOut.state, h3]⟩

lemma stepIter_fds (fdM : Nat) (s : LoopState) (ev : IterEvent) :
    (stepIter fdM s ev).state.fds = s.fds ∨
    (stepIter fdM s ev).state.fds = [fdM, 0] := by
  rcases stepIter_fds_cases fdM s ev with h | ⟨_, _, h⟩
  · exact Or.inl h
  · exact Or.inr h

lemma stepIter_fds_change (fdM : Nat) (s : LoopState) (ev : IterEvent)
    (h : (stepIter fdM s ev).state.fds ≠ s.fds) :
    (3 : Nat) ∈ ev.rfds ∧ ev.ctrlRead = .ok [] ∧
    (stepIter fdM s ev).state.fds = [fdM, 0] := by
  rcases stepIter_fds_cases fdM s ev with h' | h'
  · exact absurd h' h
  · exact h'

lemma runLoopS_fds (fdM : Nat) (evs : List SessionEvent) :
    ∀ s : LoopState, (runLoopS fdM s evs).1.fds = s.fds ∨
      (runLoopS fdM s evs).1.fds = [fdM, 0] := by
  induction evs with
  | nil => intro s; exact Or.inl rfl
  | cons e t ih =>
    intro s
    cases e with
    | intr => exact Or.inl rfl
    | io ev =>
      cases hst : stepIter fdM s ev with
      | cont s1 =>
        have hs1 := stepIter_fds fdM s ev
        rw [hst] at hs1
        simp only [StepOut.state] at hs1
        have hrec := ih s1
        simp only [runLoopS, hst]
        rcases hrec with h | h <;> rcases hs1 with h1 | h1 <;>
          simp_all
      | brk s1 =>
        have hs1 := stepIter_fds fdM s ev
        rw [hst] at hs1
        simp only [StepOut.state] at hs1
        simpa [runLoopS, hst] using hs1

/-- Claim C9: from the initial watch set `[fd, 0, 3]`, the watch set at
every point of the run is exactly `[fd, 0, 3]` or exactly `[fd, 0]`;
once it is `[fd, 0]` it stays `[fd, 0]` forever; and the only step that
ever changes it is a zero-length control-channel read, which shrinks it
to `[fd, 0]`. -/
theorem watch_set_invariant (fdM : Nat) (evs : List SessionEvent) :
    ((runLoopS fdM (initState fdM) evs).1.fds = [fdM, 0, 3] ∨
      (runLoopS fdM (initState fdM) evs).1.fds = [fdM, 0]) ∧
    (∀ s : LoopState, s.fds = [fdM, 0] →
      (runLoopS fdM s evs).1.fds = [fdM, 0]) ∧
    (∀ (s : LoopState) (ev : IterEvent),
      (stepIter fdM s ev).state.fds ≠ s.fds →
      (3 : Nat) ∈ ev.rfds ∧ ev.ctrlRead = .ok [] ∧
      (stepIter fdM s ev).state.fds = [fdM, 0]) := by
  refine ⟨?_, ?_, fun s ev h => stepIter_fds_change fdM s ev h⟩
  · simpa [initState] using runLoopS_fds fdM evs (initState fdM)
  · intro s hs
    rcases runLoopS_fds fdM evs s with h | h
    · rw [h, hs]
    · exact h

theorem watch_set_invariant_witness :
    ((runLoopS 5 (initState 5) []).1.fds = [5, 0, 3] ∨
      (runLoopS 5 (initState 5) []).1.fds = [5, 0]) ∧
    (runLoopS 5 { fds := [5, 0], outB := [], masterB := [], ioctls := [] }
      []).1.fds = [5, 0] ∧
    ((3 : Nat) ∈ ({ rfds := [3], masterRead := .ok [], stdinRead := .ok [], ctrlRead := .ok [], stdoutRes := none, writeRes := none, accept := 0, ioctlRes := none } : IterEvent).rfds ∧
      ({ rfds := [3], masterRead := .ok [], stdinRead := .ok [], ctrlRead := .ok [], stdoutRes := none, writeRes := none, accept := 0, ioctlRes := none } : IterEvent).ctrlRead = .ok [] ∧
      (stepIter 5 (initState 5)
        { rfds := [3], masterRead := .ok [], stdinRead := .ok [],
          ctrlRead := .ok [], stdoutRes := none, writeRes := none,
          accept := 0, ioctlRes := none }).state.fds = [5, 0]) :=
  ⟨(watch_set_invariant 5 []).1,
   (watch_set_invariant 5 []).2.1 _ rfl,
   (watch_set_invariant 5 []).2.2 (initState 5) _ (by decide)⟩

/-- Claim C1 is violated by the code at a short write: with stdin
delivering the two bytes `[65, 66]` and the kernel accepting only one
byte of the `os.write` to the master (whose return value the source
ignores), the master receives `[65]` — not the full input sequence
`[65, 66]`.  This evaluates the loop at that failing input. -/
theorem short_write_loses_trailing_bytes :
    (runLoopS 5 (initState 5)
      [.io { rfds := [0], masterRead := .ok [], stdinRead := .ok [65, 66],
             ctrlRead := .ok [], stdoutRes := none, writeRes := none,
             accept := 1, ioctlRes := none }]).1.masterB = [65] ∧
    (runLoopS 5 (initState 5)
      [.io { rfds := [0], masterRead := .ok [], stdinRead := .ok [65, 66],
             ctrlRead := .ok [], stdoutRes := none, writeRes := none,
             accept := 1, ioctlRes := none }]).1.masterB ≠ [65, 66] := by
  decide

end PtyHelper
